import Mathlib

/-!
Verification development for the workout interval timer
(src/src/WorkoutTimer.jsx).

The component is a React function component.  Its non-presentation logic
is embedded here as a pure state machine, including the closure-capture
behavior of the reactive subscriptions:

* `Settings` holds the three configuration fields (the `workSec`,
  `restSec`, `rounds` component state; the component mirrors them into
  `startSettingsRef` via an effect, the ref is always current, and the
  two copies agree at every operation boundary, so they are collapsed
  into one field).
* The interval effect has dependency array `[isRunning, isPaused,
  phase]`.  Each render creates a fresh `handlePhaseEnd` closing over
  the `phase` and `currentRound` of that render, and the interval callback
  (plus every timeout it schedules) keeps the `handlePhaseEnd` of the
  render at which the effect last ran.  Because the dependency array
  omits `currentRound` (and `handlePhaseEnd` itself), the captured pair
  can go stale: it is refreshed only when `isRunning`, `isPaused` or
  `phase` changes.  `EngineState.interval` records the `(phase,
  currentRound)` pair captured by the currently subscribed interval
  effect (`none` when no interval is subscribed, that is when not
  running or paused), and `EngineState.pendingPhaseEnds` records, oldest
  first, the captured pair held by each scheduled and not yet fired
  `setTimeout(handlePhaseEnd, 100)` callback.  The source never stores
  the timeout id and never cancels a timeout, so entries leave this list
  only by firing.
* `handlePhaseEndCaptured s ph0 rd0` is the source `handlePhaseEnd`
  executed with captured phase `ph0` and captured round `rd0`: it
  branches on the captured phase, compares the captured round against
  the current `startSettingsRef` values, and performs its state updates
  on the current state (`setCurrentRound` uses a functional updater, so
  the increment applies to the current round; `setPhase` and
  `setRemainingMs` set absolute values).  `handlePhaseEnd s` is the
  special case of a fresh closure holding the current values.
* `refreshInterval old new` applies the effect resubscription that
  follows a render: if the dependency triple changed, the old interval
  is cleared and, when the new state is running and unpaused, a new
  interval capturing the new `(phase, currentRound)` is installed.
* Milliseconds are rationals (the source works with JS numbers coming
  from `performance.now`, which are fractional).
* The tick interval callback becomes `tick`, which also returns the
  list of cues emitted by `audio.playBeep`, each tagged with the
  `secondsRemaining` value at which it fired.  A tick reads only refs
  and the functional updater argument, which are always current; the
  only captured data it propagates is the interval closure it appends
  to `pendingPhaseEnds` when the countdown reaches zero.  The interval
  only exists while `isRunning && !isPaused` (the effect returns early
  otherwise), hence the guard in `tick`; a tick changes no field of the
  dependency triple, so it never resubscribes the effect.
* User-level operations form the `Op` type; `stepState` applies one
  operation followed by the effect resubscription.  `Op.start`,
  `Op.stop` and `Op.setConfig` are guarded the way the UI guards them:
  the Start button is rendered only while not running, the Stop button
  only while running, and the three numeric inputs are rendered only
  while not running.  `Op.firePhaseEnd` is the oldest scheduled timeout
  firing: it consumes its list entry and runs `handlePhaseEndCaptured`
  with the pair that timeout captured.
-/
structure Settings where
  workSec : ℕ
  restSec : ℕ
  rounds : ℕ
deriving DecidableEq

inductive Phase where
  | idle
  | work
  | rest
deriving DecidableEq

inductive ToneKind where
  | short
  | long
deriving DecidableEq

/-- A cue event passed to `playBeep` (tone kind and frequency in Hz). -/
structure Cue where
  tone : ToneKind
  frequencyHz : ℕ
deriving DecidableEq

/-- Tone duration in milliseconds: `const dur = type === "long" ? 0.6 : 0.15`
seconds in `playBeep`. -/
def beepDurationMs : ToneKind → ℚ
  | .long => 600
  | .short => 150

def shortCue : Cue := ⟨.short, 880⟩

def longCue : Cue := ⟨.long, 1200⟩

structure EngineState where
  settings : Settings
  isRunning : Bool
  isPaused : Bool
  phase : Phase
  currentRound : ℕ
  remainingMs : ℚ
  lastBeepSecond : Option ℤ
  interval : Option (Phase × ℕ)
  pendingPhaseEnds : List (Phase × ℕ)
deriving DecidableEq

/-- Initial component state from the `useState` initializers:
work 20, rest 40, rounds 5, not running, not paused, idle, round 0,
remaining 0, no beep memory, nothing scheduled. -/
def initialState : EngineState :=
  { settings := ⟨20, 40, 5⟩
    isRunning := false
    isPaused := false
    phase := .idle
    currentRound := 0
    remainingMs := 0
    lastBeepSecond := none
    interval := none
    pendingPhaseEnds := [] }

/-- `const sec = Math.ceil(next / 1000)` in the interval callback. -/
def secondsRemaining (ms : ℚ) : ℤ := ⌈ms / 1000⌉

/-- Source `stopTimer`: unconditionally returns the run state to Idle and
clears the beep memory.  It does not touch the pending phase-end
timeouts (the source never stores the timeout id). -/
def stopTimer (s : EngineState) : EngineState :=
  { s with
    isRunning := false
    isPaused := false
    phase := .idle
    remainingMs := 0
    currentRound := 0
    lastBeepSecond := none }

/-- Source `startTimer`: reads the current settings, sets round 1, Work,
full work duration, running, unpaused, clears the beep memory.  Note the
absence of any `isRunning` guard in the source function itself. -/
def startTimer (s : EngineState) : EngineState :=
  { s with
    currentRound := 1
    phase := .work
    remainingMs := (s.settings.workSec : ℚ) * 1000
    isRunning := true
    isPaused := false
    lastBeepSecond := none }

/-- Source `handlePhaseEnd` as executed by a fired timeout whose closure
captured phase `ph0` and round `rd0`.  It clears the beep memory ref
(always current), branches on the captured phase, reads the settings
from `startSettingsRef` (always current), compares the captured round
`rd0` in `currentRound >= s.rounds`, and performs its updates on the
current state: `setCurrentRound((c) => c + 1)` increments the current
round, while `setPhase` and `setRemainingMs` assign absolute values. -/
def handlePhaseEndCaptured (s : EngineState) (ph0 : Phase) (rd0 : ℕ) : EngineState :=
  let st := s.settings
  let s1 := { s with lastBeepSecond := (none : Option ℤ) }
  match ph0 with
  | .work =>
      if 0 < st.restSec then
        { s1 with phase := .rest, remainingMs := (st.restSec : ℚ) * 1000 }
      else if st.rounds ≤ rd0 then
        stopTimer s1
      else
        { s1 with
          currentRound := s1.currentRound + 1
          phase := .work
          remainingMs := (st.workSec : ℚ) * 1000 }
  | .rest =>
      if st.rounds ≤ rd0 then
        stopTimer s1
      else
        { s1 with
          currentRound := s1.currentRound + 1
          phase := .work
          remainingMs := (st.workSec : ℚ) * 1000 }
  | .idle => s1

/-- Source `handlePhaseEnd` executed with a fresh closure, that is with
captured values equal to the current ones (the case of the first
phase end of a phase that was entered by a dependency-changing
transition with no later round change). -/
def handlePhaseEnd (s : EngineState) : EngineState :=
  handlePhaseEndCaptured s s.phase s.currentRound

/-- Source `togglePause`: no-op unless running, otherwise flips the
paused flag (the `lastTickRef` resynchronization is host time
bookkeeping and does not appear in the state machine). -/
def togglePause (s : EngineState) : EngineState :=
  if s.isRunning = false then s
  else { s with isPaused := !s.isPaused }

/-- Body of the interval callback without the effect guard: compute
`next = Math.max(0, prev - delta)` and `sec = Math.ceil(next / 1000)`;
if `sec <= 3 && sec !== lastBeepSecondRef.current`, record `sec` in the
beep memory and emit a short 880 Hz cue when `sec > 0`, a long 1200 Hz
cue when `sec === 0`; finally, if `next <= 0`, schedule one more
`handlePhaseEnd` timeout.  The scheduled timeout holds the closure of
the interval that scheduled it, so its entry carries the interval
capture; a tick only runs from a subscribed interval, so `s.interval`
is `some` pair whenever this body executes (`Option.toList` makes the
definition total). -/
def tickCore (s : EngineState) (delta : ℚ) : EngineState × List (ℤ × Cue) :=
  let next := max 0 (s.remainingMs - delta)
  let sec := secondsRemaining next
  let pending' :=
    if next ≤ 0 then s.pendingPhaseEnds ++ s.interval.toList else s.pendingPhaseEnds
  if sec ≤ 3 ∧ (some sec : Option ℤ) ≠ s.lastBeepSecond then
    ({ s with remainingMs := next, lastBeepSecond := some sec, pendingPhaseEnds := pending' },
     if 0 < sec then [(sec, shortCue)] else if sec = 0 then [(sec, longCue)] else [])
  else
    ({ s with remainingMs := next, pendingPhaseEnds := pending' }, [])

/-- The tick interval callback: the effect installing the interval
returns early unless `isRunning && !isPaused`, so a tick is a no-op
otherwise. -/
def tick (s : EngineState) (delta : ℚ) : EngineState × List (ℤ × Cue) :=
  if s.isRunning = true ∧ s.isPaused = false then tickCore s delta
  else (s, [])

/-- Run a list of ticks, concatenating the emitted cues. -/
def runTicks : EngineState → List ℚ → EngineState × List (ℤ × Cue)
  | s, [] => (s, [])
  | s, d :: ds =>
      let p := tick s d
      let q := runTicks p.1 ds
      (q.1, p.2 ++ q.2)

/-- User and timer operations on the component. -/
inductive Op where
  | start
  | stop
  | pauseToggle
  | tickOp (d : ℚ)
  | firePhaseEnd
  | setConfig (c : Settings)

/-- The dependency array of the interval effect:
`[isRunning, isPaused, phase]`.  Note that it omits `currentRound`. -/
def effectDeps (s : EngineState) : Bool × Bool × Phase :=
  (s.isRunning, s.isPaused, s.phase)

/-- Effect resubscription after a render taking `old` to `new`: if the
dependency triple is unchanged the effect does not re-run and the
interval keeps its old closure; otherwise the old interval is cleared
and, when the new state is running and unpaused, a new interval is
installed capturing the new `(phase, currentRound)` (when not running
or paused the effect body returns early and no interval exists). -/
def refreshInterval (old new : EngineState) : EngineState :=
  if effectDeps new = effectDeps old then new
  else if new.isRunning = true ∧ new.isPaused = false then
    { new with interval := some (new.phase, new.currentRound) }
  else
    { new with interval := none }

/-- One operation followed by the effect resubscription of the render
it triggers.  `start` and `stop` carry the guard that the UI renders
the Start button only while not running and the Stop button only while
running; `setConfig` carries the guard that the three numeric inputs
are rendered only while not running (guarded no-ops trigger no render
and hence no resubscription); `firePhaseEnd` is the oldest scheduled
`handlePhaseEnd` timeout firing: it consumes its entry and executes the
source function with the phase and round that timeout captured. -/
def stepState (s : EngineState) : Op → EngineState
  | .start => if s.isRunning = true then s else refreshInterval s (startTimer s)
  | .stop => if s.isRunning = true then refreshInterval s (stopTimer s) else s
  | .pauseToggle => refreshInterval s (togglePause s)
  | .tickOp d => refreshInterval s (tick s d).1
  | .firePhaseEnd =>
      match s.pendingPhaseEnds with
      | [] => s
      | c :: tl =>
          refreshInterval s
            (handlePhaseEndCaptured { s with pendingPhaseEnds := tl } c.1 c.2)
  | .setConfig c =>
      if s.isRunning = true then s else refreshInterval s { s with settings := c }

/-- Run a list of operations. -/
def runOps : EngineState → List Op → EngineState
  | s, [] => s
  | s, op :: ops => runOps (stepState s op) ops

/-- Audio-aware tick body: identical to `tickCore`, except that the cue
emission can fail (the lazily created audio sink may be unavailable).
The source wraps nothing in try/catch: `lastBeepSecondRef.current = sec`
has already been assigned when `playBeep` is reached, and a raised
emission aborts the state updater, so the remaining-time update and the
phase-end scheduling of that tick are lost.  The error value is the
state as left behind by the aborted tick. -/
def tickCoreAudio (s : EngineState) (delta : ℚ) (audioOk : Bool) :
    Except EngineState (EngineState × List (ℤ × Cue)) :=
  let next := max 0 (s.remainingMs - delta)
  let sec := secondsRemaining next
  if sec ≤ 3 ∧ (some sec : Option ℤ) ≠ s.lastBeepSecond then
    if audioOk then .ok (tickCore s delta)
    else .error { s with lastBeepSecond := some sec }
  else .ok (tickCore s delta)

/-- Audio-aware tick with the effect guard. -/
def tickAudio (s : EngineState) (delta : ℚ) (audioOk : Bool) :
    Except EngineState (EngineState × List (ℤ × Cue)) :=
  if s.isRunning = true ∧ s.isPaused = false then tickCoreAudio s delta audioOk
  else .ok (s, [])

/-- Grace delay of the scheduled phase transition:
`setTimeout(() => handlePhaseEnd(), 100)`. -/
def graceDelayMs : ℚ := 100

/-- Tick cadence of the interval the component installs:
`setInterval(..., 200)`. -/
def tickIntervalMs : ℚ := 200

/-! ### Basic characterizations of `tick` -/

lemma tick_active {s : EngineState} (hr : s.isRunning = true) (hp : s.isPaused = false)
    (d : ℚ) : tick s d = tickCore s d := by
  simp [tick, hr, hp]

lemma tick_not_running {s : EngineState} (hr : s.isRunning = false) (d : ℚ) :
    tick s d = (s, []) := by
  simp [tick, hr]

lemma tick_paused {s : EngineState} (hp : s.isPaused = true) (d : ℚ) :
    tick s d = (s, []) := by
  simp [tick, hp]

lemma tickCore_fst_remainingMs (s : EngineState) (d : ℚ) :
    (tickCore s d).1.remainingMs = max 0 (s.remainingMs - d) := by
  simp only [tickCore]
  split <;> rfl

lemma tickCore_fst_isRunning (s : EngineState) (d : ℚ) :
    (tickCore s d).1.isRunning = s.isRunning := by
  simp only [tickCore]
  split <;> rfl

lemma tickCore_fst_isPaused (s : EngineState) (d : ℚ) :
    (tickCore s d).1.isPaused = s.isPaused := by
  simp only [tickCore]
  split <;> rfl

lemma tickCore_fst_phase (s : EngineState) (d : ℚ) :
    (tickCore s d).1.phase = s.phase := by
  simp only [tickCore]
  split <;> rfl

lemma tickCore_fst_settings (s : EngineState) (d : ℚ) :
    (tickCore s d).1.settings = s.settings := by
  simp only [tickCore]
  split <;> rfl

lemma tickCore_fst_currentRound (s : EngineState) (d : ℚ) :
    (tickCore s d).1.currentRound = s.currentRound := by
  simp only [tickCore]
  split <;> rfl

lemma tickCore_fst_interval (s : EngineState) (d : ℚ) :
    (tickCore s d).1.interval = s.interval := by
  simp only [tickCore]
  split <;> rfl

lemma tickCore_fst_pendingPhaseEnds (s : EngineState) (d : ℚ) :
    (tickCore s d).1.pendingPhaseEnds =
      (if max 0 (s.remainingMs - d) ≤ 0 then s.pendingPhaseEnds ++ s.interval.toList
       else s.pendingPhaseEnds) := by
  simp only [tickCore]
  split <;> rfl

lemma tick_fst_isRunning (s : EngineState) (d : ℚ) :
    (tick s d).1.isRunning = s.isRunning := by
  unfold tick
  split
  · exact tickCore_fst_isRunning s d
  · rfl

lemma tick_fst_isPaused (s : EngineState) (d : ℚ) :
    (tick s d).1.isPaused = s.isPaused := by
  unfold tick
  split
  · exact tickCore_fst_isPaused s d
  · rfl

lemma tick_fst_phase (s : EngineState) (d : ℚ) :
    (tick s d).1.phase = s.phase := by
  unfold tick
  split
  · exact tickCore_fst_phase s d
  · rfl

lemma tick_fst_settings (s : EngineState) (d : ℚ) :
    (tick s d).1.settings = s.settings := by
  unfold tick
  split
  · exact tickCore_fst_settings s d
  · rfl

lemma tick_fst_currentRound (s : EngineState) (d : ℚ) :
    (tick s d).1.currentRound = s.currentRound := by
  unfold tick
  split
  · exact tickCore_fst_currentRound s d
  · rfl

lemma tick_fst_effectDeps (s : EngineState) (d : ℚ) :
    effectDeps (tick s d).1 = effectDeps s := by
  unfold effectDeps
  rw [tick_fst_isRunning, tick_fst_isPaused, tick_fst_phase]

/-! ### Characterizations of the effect resubscription -/

lemma refreshInterval_deps_eq {a b : EngineState} (h : effectDeps b = effectDeps a) :
    refreshInterval a b = b := by
  unfold refreshInterval
  rw [if_pos h]

lemma refreshInterval_active {a b : EngineState} (h : ¬effectDeps b = effectDeps a)
    (hr : b.isRunning = true) (hp : b.isPaused = false) :
    refreshInterval a b = { b with interval := some (b.phase, b.currentRound) } := by
  unfold refreshInterval
  rw [if_neg h, if_pos ⟨hr, hp⟩]

lemma refreshInterval_inactive {a b : EngineState} (h : ¬effectDeps b = effectDeps a)
    (hrp : ¬(b.isRunning = true ∧ b.isPaused = false)) :
    refreshInterval a b = { b with interval := none } := by
  unfold refreshInterval
  rw [if_neg h, if_neg hrp]

lemma refreshInterval_isRunning (a b : EngineState) :
    (refreshInterval a b).isRunning = b.isRunning := by
  unfold refreshInterval
  split
  · rfl
  · split <;> rfl

lemma refreshInterval_isPaused (a b : EngineState) :
    (refreshInterval a b).isPaused = b.isPaused := by
  unfold refreshInterval
  split
  · rfl
  · split <;> rfl

lemma refreshInterval_phase (a b : EngineState) :
    (refreshInterval a b).phase = b.phase := by
  unfold refreshInterval
  split
  · rfl
  · split <;> rfl

lemma refreshInterval_currentRound (a b : EngineState) :
    (refreshInterval a b).currentRound = b.currentRound := by
  unfold refreshInterval
  split
  · rfl
  · split <;> rfl

lemma refreshInterval_remainingMs (a b : EngineState) :
    (refreshInterval a b).remainingMs = b.remainingMs := by
  unfold refreshInterval
  split
  · rfl
  · split <;> rfl

lemma refreshInterval_settings (a b : EngineState) :
    (refreshInterval a b).settings = b.settings := by
  unfold refreshInterval
  split
  · rfl
  · split <;> rfl

lemma refreshInterval_lastBeepSecond (a b : EngineState) :
    (refreshInterval a b).lastBeepSecond = b.lastBeepSecond := by
  unfold refreshInterval
  split
  · rfl
  · split <;> rfl

lemma refreshInterval_pendingPhaseEnds (a b : EngineState) :
    (refreshInterval a b).pendingPhaseEnds = b.pendingPhaseEnds := by
  unfold refreshInterval
  split
  · rfl
  · split <;> rfl

/-! ### Arithmetic facts about `secondsRemaining` -/

lemma secondsRemaining_nonneg {ms : ℚ} (h : 0 ≤ ms) : 0 ≤ secondsRemaining ms := by
  unfold secondsRemaining
  exact Int.ceil_nonneg (by positivity)

lemma secondsRemaining_mono {a b : ℚ} (h : a ≤ b) :
    secondsRemaining a ≤ secondsRemaining b := by
  unfold secondsRemaining
  exact Int.ceil_le_ceil (by gcongr)

lemma secondsRemaining_sub_thousand {r n : ℚ} (h : r - 1000 ≤ n) :
    secondsRemaining r - 1 ≤ secondsRemaining n := by
  have h1 : secondsRemaining (r - 1000) ≤ secondsRemaining n := secondsRemaining_mono h
  have h2 : secondsRemaining (r - 1000) = secondsRemaining r - 1 := by
    unfold secondsRemaining
    rw [show (r - 1000) / 1000 = r / 1000 - 1 by rw [sub_div]; norm_num]
    exact Int.ceil_sub_one _
  omega

lemma four_le_secondsRemaining {r : ℚ} (h : 4000 ≤ r) : 4 ≤ secondsRemaining r := by
  unfold secondsRemaining
  have : (3 : ℚ) < r / 1000 := by linarith
  have := Int.lt_ceil.mpr (by exact_mod_cast this : ((3 : ℤ) : ℚ) < r / 1000)
  omega

lemma secondsRemaining_zero : secondsRemaining 0 = 0 := by
  norm_num [secondsRemaining]

/-! ### Branch equations of the captured phase-end action -/

lemma captured_work_rest {s : EngineState} (rd0 : ℕ) (hrest : 0 < s.settings.restSec) :
    handlePhaseEndCaptured s .work rd0 =
      { s with
        phase := .rest
        remainingMs := (s.settings.restSec : ℚ) * 1000
        lastBeepSecond := none } := by
  unfold handlePhaseEndCaptured
  dsimp only
  rw [if_pos hrest]

lemma captured_work_stop {s : EngineState} (rd0 : ℕ) (hrest : s.settings.restSec = 0)
    (hrd : s.settings.rounds ≤ rd0) :
    handlePhaseEndCaptured s .work rd0 = stopTimer s := by
  unfold handlePhaseEndCaptured
  dsimp only
  rw [if_neg (by omega), if_pos hrd]
  rfl

lemma captured_work_next {s : EngineState} (rd0 : ℕ) (hrest : s.settings.restSec = 0)
    (hrd : rd0 < s.settings.rounds) :
    handlePhaseEndCaptured s .work rd0 =
      { s with
        currentRound := s.currentRound + 1
        phase := .work
        remainingMs := (s.settings.workSec : ℚ) * 1000
        lastBeepSecond := none } := by
  unfold handlePhaseEndCaptured
  dsimp only
  rw [if_neg (by omega), if_neg (by omega)]

lemma captured_rest_stop {s : EngineState} (rd0 : ℕ) (hrd : s.settings.rounds ≤ rd0) :
    handlePhaseEndCaptured s .rest rd0 = stopTimer s := by
  unfold handlePhaseEndCaptured
  dsimp only
  rw [if_pos hrd]
  rfl

lemma captured_rest_next {s : EngineState} (rd0 : ℕ) (hrd : rd0 < s.settings.rounds) :
    handlePhaseEndCaptured s .rest rd0 =
      { s with
        currentRound := s.currentRound + 1
        phase := .work
        remainingMs := (s.settings.workSec : ℚ) * 1000
        lastBeepSecond := none } := by
  unfold handlePhaseEndCaptured
  dsimp only
  rw [if_neg (by omega)]

lemma captured_idle (s : EngineState) (rd0 : ℕ) :
    handlePhaseEndCaptured s .idle rd0 = { s with lastBeepSecond := none } := rfl

lemma captured_settings (s : EngineState) (ph0 : Phase) (rd0 : ℕ) :
    (handlePhaseEndCaptured s ph0 rd0).settings = s.settings := by
  unfold handlePhaseEndCaptured
  cases ph0 <;> dsimp only <;> (repeat' split) <;> rfl

lemma captured_lastBeepSecond (s : EngineState) (ph0 : Phase) (rd0 : ℕ) :
    (handlePhaseEndCaptured s ph0 rd0).lastBeepSecond = none := by
  unfold handlePhaseEndCaptured
  cases ph0 <;> dsimp only <;> (repeat' split) <;> rfl

lemma captured_pendingPhaseEnds (s : EngineState) (ph0 : Phase) (rd0 : ℕ) :
    (handlePhaseEndCaptured s ph0 rd0).pendingPhaseEnds = s.pendingPhaseEnds := by
  unfold handlePhaseEndCaptured
  cases ph0 <;> dsimp only <;> (repeat' split) <;> rfl

lemma handlePhaseEnd_settings (s : EngineState) :
    (handlePhaseEnd s).settings = s.settings :=
  captured_settings s s.phase s.currentRound

lemma handlePhaseEnd_lastBeepSecond (s : EngineState) :
    (handlePhaseEnd s).lastBeepSecond = none :=
  captured_lastBeepSecond s s.phase s.currentRound

/-! ### The running invariant -/

/-- Invariant of the spec data model: a stopped timer is Idle with zero
remaining time and round zero. -/
abbrev runInv (s : EngineState) : Prop :=
  s.isRunning = false → s.phase = .idle ∧ s.remainingMs = 0 ∧ s.currentRound = 0

lemma runInv_stopTimer (s : EngineState) : runInv (stopTimer s) := by
  intro _
  exact ⟨rfl, rfl, rfl⟩

lemma runInv_startTimer (s : EngineState) : runInv (startTimer s) := by
  intro h
  simp [startTimer] at h

lemma runInv_initialState : runInv initialState := by
  intro _
  exact ⟨rfl, rfl, rfl⟩

lemma runInv_refreshInterval {b : EngineState} (a : EngineState) (h : runInv b) :
    runInv (refreshInterval a b) := by
  intro hr
  rw [refreshInterval_isRunning] at hr
  rw [refreshInterval_phase, refreshInterval_remainingMs, refreshInterval_currentRound]
  exact h hr

lemma runInv_captured_of_running {s : EngineState} (hr : s.isRunning = true)
    (ph0 : Phase) (rd0 : ℕ) : runInv (handlePhaseEndCaptured s ph0 rd0) := by
  unfold handlePhaseEndCaptured
  cases ph0 <;> dsimp only <;> (repeat' split)
  all_goals first
    | exact runInv_stopTimer _
    | exact fun hfalse => Bool.noConfusion (hr.symm.trans hfalse)

lemma runInv_togglePause {s : EngineState} (h : runInv s) : runInv (togglePause s) := by
  unfold togglePause
  split
  · exact h
  · next hr => exact fun hfalse => absurd hfalse hr

lemma runInv_tick {s : EngineState} (h : runInv s) (d : ℚ) : runInv (tick s d).1 := by
  by_cases hr : s.isRunning = true
  · intro hfalse
    rw [tick_fst_isRunning] at hfalse
    rw [hr] at hfalse
    cases hfalse
  · have hr' : s.isRunning = false := by
      cases hb : s.isRunning
      · rfl
      · exact absurd hb hr
    rw [tick_not_running hr']
    exact h

/-! ### Remaining time over a tick sequence -/

lemma max_zero_sub_chain {x y : ℚ} (hy : 0 ≤ y) :
    max 0 (max 0 x - y) = max 0 (x - y) := by
  rcases le_total 0 x with hx | hx
  · rw [max_eq_right hx]
  · rw [max_eq_left (by linarith : x ≤ 0)]
    rw [max_eq_left (by linarith : x - y ≤ 0)]
    rw [max_eq_left (by linarith : 0 - y ≤ 0)]

lemma runTicks_remainingMs (ds : List ℚ) :
    ∀ s : EngineState, s.isRunning = true → s.isPaused = false →
      0 ≤ s.remainingMs → (∀ d ∈ ds, 0 ≤ d) →
      (runTicks s ds).1.remainingMs = max 0 (s.remainingMs - ds.sum) := by
  induction ds with
  | nil =>
      intro s _ _ hrem _
      show s.remainingMs = _
      rw [List.sum_nil, sub_zero, max_eq_right hrem]
  | cons d ds ih =>
      intro s hr hp hrem hd
      have hds : ∀ x ∈ ds, 0 ≤ x := fun x hx => hd x (by simp [hx])
      have hsum : 0 ≤ ds.sum := List.sum_nonneg hds
      have hr' : (tick s d).1.isRunning = true := by rw [tick_fst_isRunning]; exact hr
      have hp' : (tick s d).1.isPaused = false := by rw [tick_fst_isPaused]; exact hp
      have hrem1 : (tick s d).1.remainingMs = max 0 (s.remainingMs - d) := by
        rw [tick_active hr hp, tickCore_fst_remainingMs]
      have hrem1' : 0 ≤ (tick s d).1.remainingMs := by rw [hrem1]; exact le_max_left _ _
      show (runTicks (tick s d).1 ds).1.remainingMs = _
      rw [ih (tick s d).1 hr' hp' hrem1' hds, hrem1, max_zero_sub_chain hsum, List.sum_cons]
      congr 1
      ring

/-! ### The cue trace of a countdown -/

/-- The cue the source emits at a given `secondsRemaining` value:
short 880 Hz for positive seconds, long 1200 Hz at zero. -/
def cueFor (v : ℤ) : Cue := if 0 < v then shortCue else longCue

/-- Expected cue trace while the displayed second counts down from `m`
to `f`: one cue for every value `m - 1, m - 2, ..., f`. -/
def cueSpan : ℕ → ℕ → List (ℤ × Cue)
  | 0, _ => []
  | m + 1, f => if f ≤ m then ((m : ℤ), cueFor (m : ℤ)) :: cueSpan m f else []

/-- The next second value that is due a cue, as a natural number:
4 when no cue has fired in this phase, otherwise the recorded second. -/
def markerN (s : EngineState) : ℕ :=
  match s.lastBeepSecond with
  | none => 4
  | some k => k.toNat

/-- Displayed second clipped at the cue threshold. -/
def secClip (ms : ℚ) : ℕ := min 4 (secondsRemaining ms).toNat

/-- Invariant tying the beep memory to the remaining time: either no cue
fired yet and at least 4 displayed seconds remain, or the memory holds
exactly the current displayed second, which is at most 3. -/
def cueInv (s : EngineState) : Prop :=
  0 ≤ s.remainingMs ∧
  ((s.lastBeepSecond = none ∧ 4 ≤ secondsRemaining s.remainingMs) ∨
   (s.lastBeepSecond = some (secondsRemaining s.remainingMs) ∧
    secondsRemaining s.remainingMs ≤ 3))

lemma cueSpan_succ (m f : ℕ) :
    cueSpan (m + 1) f =
      (if f ≤ m then ((m : ℤ), cueFor (m : ℤ)) :: cueSpan m f else []) := rfl

lemma cueSpan_self : ∀ m : ℕ, cueSpan m m = []
  | 0 => rfl
  | m + 1 => by
      rw [cueSpan_succ, if_neg (by omega)]

lemma cueSpan_cons {m f : ℕ} (h : f ≤ m) :
    cueSpan (m + 1) f = ((m : ℤ), cueFor (m : ℤ)) :: cueSpan m f := by
  rw [cueSpan_succ, if_pos h]

lemma markerN_eq_four {s : EngineState} (h : s.lastBeepSecond = none) :
    markerN s = 4 := by
  unfold markerN
  rw [h]

lemma markerN_eq_toNat {s : EngineState} {k : ℤ} (h : s.lastBeepSecond = some k) :
    markerN s = k.toNat := by
  unfold markerN
  rw [h]

lemma secClip_mono {a b : ℚ} (h : a ≤ b) : secClip a ≤ secClip b := by
  have := secondsRemaining_mono h
  unfold secClip
  omega

lemma secClip_eq_markerN {s : EngineState} (hinv : cueInv s) :
    secClip s.remainingMs = markerN s := by
  obtain ⟨h0, hc⟩ := hinv
  rcases hc with ⟨hmem, hge⟩ | ⟨hmem, hle⟩
  · rw [markerN_eq_four hmem]
    unfold secClip
    omega
  · have hnn : 0 ≤ secondsRemaining s.remainingMs := secondsRemaining_nonneg h0
    rw [markerN_eq_toNat hmem]
    unfold secClip
    omega

lemma tickCore_fire {s : EngineState} {d : ℚ}
    (h : secondsRemaining (max 0 (s.remainingMs - d)) ≤ 3 ∧
         (some (secondsRemaining (max 0 (s.remainingMs - d))) : Option ℤ) ≠ s.lastBeepSecond) :
    tickCore s d =
      ({ s with
          remainingMs := max 0 (s.remainingMs - d)
          lastBeepSecond := some (secondsRemaining (max 0 (s.remainingMs - d)))
          pendingPhaseEnds :=
            if max 0 (s.remainingMs - d) ≤ 0 then s.pendingPhaseEnds ++ s.interval.toList
            else s.pendingPhaseEnds },
       if 0 < secondsRemaining (max 0 (s.remainingMs - d)) then
         [(secondsRemaining (max 0 (s.remainingMs - d)), shortCue)]
       else if secondsRemaining (max 0 (s.remainingMs - d)) = 0 then
         [(secondsRemaining (max 0 (s.remainingMs - d)), longCue)]
       else []) := by
  simp only [tickCore]
  rw [if_pos h]

lemma tickCore_nofire {s : EngineState} {d : ℚ}
    (h : ¬(secondsRemaining (max 0 (s.remainingMs - d)) ≤ 3 ∧
           (some (secondsRemaining (max 0 (s.remainingMs - d))) : Option ℤ) ≠ s.lastBeepSecond)) :
    tickCore s d =
      ({ s with
          remainingMs := max 0 (s.remainingMs - d)
          pendingPhaseEnds :=
            if max 0 (s.remainingMs - d) ≤ 0 then s.pendingPhaseEnds ++ s.interval.toList
            else s.pendingPhaseEnds },
       []) := by
  simp only [tickCore]
  rw [if_neg h]

lemma fire_trace_eq {v : ℤ} (hv : 0 ≤ v) :
    (if 0 < v then [(v, shortCue)] else if v = 0 then [(v, longCue)] else [])
      = [(v, cueFor v)] := by
  by_cases h : 0 < v
  · simp [h, cueFor]
  · have hv0 : v = 0 := by omega
    simp [hv0, cueFor]

lemma tickCore_trace_step {s : EngineState} {d : ℚ} (hd0 : 0 ≤ d) (hd1 : d ≤ 1000)
    (hinv : cueInv s) :
    cueInv (tickCore s d).1 ∧
    (tickCore s d).1.remainingMs ≤ s.remainingMs ∧
    ∀ f : ℕ, f ≤ secClip (tickCore s d).1.remainingMs →
      cueSpan (markerN s) f = (tickCore s d).2 ++ cueSpan (markerN (tickCore s d).1) f := by
  obtain ⟨h0, hc⟩ := hinv
  have hnext0 : 0 ≤ max 0 (s.remainingMs - d) := le_max_left _ _
  have hnextle : max 0 (s.remainingMs - d) ≤ s.remainingMs := max_le h0 (by linarith)
  have hs1le : secondsRemaining (max 0 (s.remainingMs - d)) ≤ secondsRemaining s.remainingMs :=
    secondsRemaining_mono hnextle
  have hs1ge : secondsRemaining s.remainingMs - 1 ≤
      secondsRemaining (max 0 (s.remainingMs - d)) := by
    apply secondsRemaining_sub_thousand
    calc s.remainingMs - 1000 ≤ s.remainingMs - d := by linarith
    _ ≤ max 0 (s.remainingMs - d) := le_max_right _ _
  have hs1nn : 0 ≤ secondsRemaining (max 0 (s.remainingMs - d)) :=
    secondsRemaining_nonneg hnext0
  by_cases hfire : secondsRemaining (max 0 (s.remainingMs - d)) ≤ 3 ∧
      (some (secondsRemaining (max 0 (s.remainingMs - d))) : Option ℤ) ≠ s.lastBeepSecond
  · -- a cue fires at the new displayed second
    have hmk : markerN s = (secondsRemaining (max 0 (s.remainingMs - d))).toNat + 1 := by
      rcases hc with ⟨hmem, hge4⟩ | ⟨hmem, hle3⟩
      · rw [markerN_eq_four hmem]
        omega
      · rw [markerN_eq_toNat hmem]
        have hne : secondsRemaining (max 0 (s.remainingMs - d)) ≠
            secondsRemaining s.remainingMs := by
          intro hcon
          exact hfire.2 (by rw [hcon, hmem])
        omega
    rw [tickCore_fire hfire]
    refine ⟨⟨hnext0, Or.inr ⟨rfl, hfire.1⟩⟩, hnextle, ?_⟩
    dsimp only
    intro f hf
    have hf' : f ≤ (secondsRemaining (max 0 (s.remainingMs - d))).toNat := by
      unfold secClip at hf
      omega
    have hmk2 : markerN
        { s with
          remainingMs := max 0 (s.remainingMs - d)
          lastBeepSecond := some (secondsRemaining (max 0 (s.remainingMs - d)))
          pendingPhaseEnds :=
            if max 0 (s.remainingMs - d) ≤ 0 then s.pendingPhaseEnds ++ s.interval.toList
            else s.pendingPhaseEnds } =
        (secondsRemaining (max 0 (s.remainingMs - d))).toNat := markerN_eq_toNat rfl
    rw [hmk, hmk2, fire_trace_eq hs1nn, cueSpan_cons hf']
    rw [show (((secondsRemaining (max 0 (s.remainingMs - d))).toNat : ℤ)) =
        secondsRemaining (max 0 (s.remainingMs - d)) by omega]
    rfl
  · -- no cue fires: either still above the zone, or the second is unchanged
    rw [tickCore_nofire hfire]
    have hmk2 : markerN
        { s with
          remainingMs := max 0 (s.remainingMs - d)
          pendingPhaseEnds :=
            if max 0 (s.remainingMs - d) ≤ 0 then s.pendingPhaseEnds ++ s.interval.toList
            else s.pendingPhaseEnds } = markerN s := rfl
    have htrace : ∀ f : ℕ, f ≤ secClip (max 0 (s.remainingMs - d)) →
        cueSpan (markerN s) f =
          ([] : List (ℤ × Cue)) ++ cueSpan (markerN
            { s with
              remainingMs := max 0 (s.remainingMs - d)
              pendingPhaseEnds :=
                if max 0 (s.remainingMs - d) ≤ 0 then s.pendingPhaseEnds ++ s.interval.toList
                else s.pendingPhaseEnds }) f := by
      intro f _
      rw [hmk2, List.nil_append]
    rcases hc with ⟨hmem, hge4⟩ | ⟨hmem, hle3⟩
    · have hge : 4 ≤ secondsRemaining (max 0 (s.remainingMs - d)) := by
        by_contra hlt
        exact hfire ⟨by omega, by rw [hmem]; simp⟩
      exact ⟨⟨hnext0, Or.inl ⟨hmem, hge⟩⟩, hnextle, htrace⟩
    · have hsame : secondsRemaining (max 0 (s.remainingMs - d)) =
          secondsRemaining s.remainingMs := by
        by_contra hne
        refine hfire ⟨by omega, ?_⟩
        rw [hmem]
        intro hcon
        rw [Option.some_inj] at hcon
        exact hne hcon
      refine ⟨⟨hnext0, Or.inr ⟨?_, ?_⟩⟩, hnextle, htrace⟩
      · show s.lastBeepSecond = some (secondsRemaining (max 0 (s.remainingMs - d)))
        rw [hmem, hsame]
      · show secondsRemaining (max 0 (s.remainingMs - d)) ≤ 3
        omega

lemma runTicks_cueTrace (ds : List ℚ) :
    ∀ s : EngineState, s.isRunning = true → s.isPaused = false →
      (∀ d ∈ ds, 0 ≤ d ∧ d ≤ 1000) → cueInv s →
      cueInv (runTicks s ds).1 ∧
      (runTicks s ds).1.remainingMs ≤ s.remainingMs ∧
      (runTicks s ds).2 = cueSpan (markerN s) (secClip (runTicks s ds).1.remainingMs) := by
  induction ds with
  | nil =>
      intro s _ _ _ hinv
      refine ⟨hinv, le_refl _, ?_⟩
      show ([] : List (ℤ × Cue)) = cueSpan (markerN s) (secClip s.remainingMs)
      rw [secClip_eq_markerN hinv, cueSpan_self]
  | cons d ds ih =>
      intro s hr hp hd hinv
      have hd0 := (hd d (by simp)).1
      have hd1 := (hd d (by simp)).2
      have hds : ∀ x ∈ ds, 0 ≤ x ∧ x ≤ 1000 := fun x hx => hd x (by simp [hx])
      have hstep := tickCore_trace_step hd0 hd1 hinv
      have heq : tick s d = tickCore s d := tick_active hr hp d
      have hih := ih (tickCore s d).1
        (by rw [tickCore_fst_isRunning]; exact hr)
        (by rw [tickCore_fst_isPaused]; exact hp) hds hstep.1
      refine ⟨?_, ?_, ?_⟩
      · show cueInv (runTicks (tick s d).1 ds).1
        rw [heq]
        exact hih.1
      · show (runTicks (tick s d).1 ds).1.remainingMs ≤ s.remainingMs
        rw [heq]
        exact le_trans hih.2.1 hstep.2.1
      · show (tick s d).2 ++ (runTicks (tick s d).1 ds).2 =
          cueSpan (markerN s) (secClip (runTicks (tick s d).1 ds).1.remainingMs)
        rw [heq, hih.2.2]
        exact (hstep.2.2 _ (secClip_mono hih.2.1)).symm

lemma cueSpan_four_zero :
    cueSpan 4 0 = [(3, shortCue), (2, shortCue), (1, shortCue), (0, longCue)] := by
  decide

lemma cue_trace_full {s : EngineState} {ds : List ℚ}
    (hr : s.isRunning = true) (hp : s.isPaused = false)
    (hmem : s.lastBeepSecond = none) (hrem : 4000 ≤ s.remainingMs)
    (hd : ∀ d ∈ ds, 0 ≤ d ∧ d ≤ 1000) (hsum : s.remainingMs ≤ ds.sum) :
    (runTicks s ds).2 = [(3, shortCue), (2, shortCue), (1, shortCue), (0, longCue)] := by
  have hinv : cueInv s := ⟨by linarith, Or.inl ⟨hmem, four_le_secondsRemaining hrem⟩⟩
  have h := runTicks_cueTrace ds s hr hp hd hinv
  have hfin : (runTicks s ds).1.remainingMs = 0 := by
    rw [runTicks_remainingMs ds s hr hp (by linarith) (fun d hd' => (hd d hd').1)]
    rw [max_eq_left (by linarith)]
  rw [h.2.2, hfin, markerN_eq_four hmem]
  rw [show secClip 0 = 0 by unfold secClip; rw [secondsRemaining_zero]; rfl]
  exact cueSpan_four_zero

/-! ### Evaluation helpers for concrete runs -/

lemma secondsRemaining_eval {q : ℚ} {z : ℤ} (h1 : (z : ℚ) - 1 < q / 1000)
    (h2 : q / 1000 ≤ (z : ℚ)) : secondsRemaining q = z := by
  unfold secondsRemaining
  rw [Int.ceil_eq_iff]
  exact ⟨by exact_mod_cast h1, h2⟩

lemma tick_zero_eval (s : EngineState) (d : ℚ) (hr : s.isRunning = true)
    (hp : s.isPaused = false) (hnext : max 0 (s.remainingMs - d) = 0)
    (hne : (some (0 : ℤ) : Option ℤ) ≠ s.lastBeepSecond) :
    tick s d =
      ({ s with
          remainingMs := 0
          lastBeepSecond := some 0
          pendingPhaseEnds := s.pendingPhaseEnds ++ s.interval.toList },
       [((0 : ℤ), longCue)]) := by
  have hsec : secondsRemaining (max 0 (s.remainingMs - d)) = 0 := by
    rw [hnext]
    exact secondsRemaining_zero
  rw [tick_active hr hp, tickCore_fire (by rw [hsec]; exact ⟨by norm_num, hne⟩)]
  rw [hsec, hnext]
  norm_num

lemma tick_zero_repeat_eval (s : EngineState) (d : ℚ) (hr : s.isRunning = true)
    (hp : s.isPaused = false) (hnext : max 0 (s.remainingMs - d) = 0)
    (hmem : s.lastBeepSecond = some 0) :
    tick s d =
      ({ s with
          remainingMs := 0
          pendingPhaseEnds := s.pendingPhaseEnds ++ s.interval.toList },
       []) := by
  have hsec : secondsRemaining (max 0 (s.remainingMs - d)) = 0 := by
    rw [hnext]
    exact secondsRemaining_zero
  rw [tick_active hr hp, tickCore_nofire (by rw [hsec, hmem]; simp)]
  rw [hnext]
  norm_num

lemma tick_big_eval (s : EngineState) (d next : ℚ) (sec : ℤ) (hr : s.isRunning = true)
    (hp : s.isPaused = false) (hnext : max 0 (s.remainingMs - d) = next)
    (hsec : secondsRemaining next = sec) (h4 : 4 ≤ sec) :
    tick s d = ({ s with remainingMs := next }, []) := by
  have hpos : ¬(next ≤ 0) := by
    intro hle
    have h0 : 0 ≤ next := hnext ▸ le_max_left _ _
    have : next = 0 := le_antisymm hle h0
    rw [this, secondsRemaining_zero] at hsec
    omega
  rw [tick_active hr hp, tickCore_nofire (by rw [hnext, hsec]; intro hcon; omega)]
  rw [hnext, if_neg hpos]

lemma tickAudio_ok (s : EngineState) (d : ℚ) :
    tickAudio s d true = Except.ok (tick s d) := by
  unfold tickAudio tick
  split
  · unfold tickCoreAudio
    dsimp only
    split
    · rfl
    · rfl
  · rfl

lemma tickAudio_fail_eval (s : EngineState) (d next : ℚ) (sec : ℤ)
    (hr : s.isRunning = true) (hp : s.isPaused = false)
    (hnext : max 0 (s.remainingMs - d) = next) (hsec : secondsRemaining next = sec)
    (h3 : sec ≤ 3) (hne : (some sec : Option ℤ) ≠ s.lastBeepSecond) :
    tickAudio s d false = Except.error { s with lastBeepSecond := some sec } := by
  unfold tickAudio
  rw [if_pos ⟨hr, hp⟩]
  unfold tickCoreAudio
  dsimp only
  rw [hnext, hsec, if_pos ⟨h3, hne⟩]
  rfl

lemma tickAudio_nofire_eval {s : EngineState} {d : ℚ} {b : Bool}
    (hr : s.isRunning = true) (hp : s.isPaused = false)
    (hno : ¬(secondsRemaining (max 0 (s.remainingMs - d)) ≤ 3 ∧
            (some (secondsRemaining (max 0 (s.remainingMs - d))) : Option ℤ) ≠
              s.lastBeepSecond)) :
    tickAudio s d b = Except.ok (tick s d) := by
  unfold tickAudio tick
  rw [if_pos ⟨hr, hp⟩, if_pos ⟨hr, hp⟩]
  unfold tickCoreAudio
  dsimp only
  rw [if_neg hno]

lemma tick_pendingPhaseEnds {s : EngineState} (hr : s.isRunning = true)
    (hp : s.isPaused = false) (d : ℚ) :
    (tick s d).1.pendingPhaseEnds =
      (if max 0 (s.remainingMs - d) ≤ 0 then s.pendingPhaseEnds ++ s.interval.toList
       else s.pendingPhaseEnds) := by
  rw [tick_active hr hp]
  exact tickCore_fst_pendingPhaseEnds s d

/-! ### Concrete states for evaluation -/

/-- State right after pressing Start on the initial component state:
the interval effect has subscribed and captured `(work, 1)`. -/
def startedState : EngineState :=
  { settings := ⟨20, 40, 5⟩
    isRunning := true
    isPaused := false
    phase := .work
    currentRound := 1
    remainingMs := 20000
    lastBeepSecond := none
    interval := some (.work, 1)
    pendingPhaseEnds := [] }

/-- State inside the grace window: the work phase has just reached zero
and one phase-end timeout holding the `(work, 1)` closure is pending. -/
def graceState : EngineState :=
  { startedState with
    remainingMs := 0
    lastBeepSecond := some 0
    pendingPhaseEnds := [(.work, 1)] }

/-- Grace-window state after a second tick also observed zero: two
timeouts, both holding the same `(work, 1)` closure, are pending. -/
def graceState2 : EngineState :=
  { graceState with pendingPhaseEnds := [(.work, 1), (.work, 1)] }

/-- Stopped during the grace window: Idle, interval cleared, but the
timeout with its `(work, 1)` closure is still pending. -/
def stoppedGraceState : EngineState :=
  { initialState with pendingPhaseEnds := [(.work, 1)] }

/-- The state after the leftover timeout of the stopped run fired: its
captured Work closure performed the Work-to-Rest transition although
the timer was Idle and not running. -/
def spuriousStoppedRestState : EngineState :=
  { settings := ⟨20, 40, 5⟩
    isRunning := false
    isPaused := false
    phase := .rest
    currentRound := 0
    remainingMs := 40000
    lastBeepSecond := none
    interval := none
    pendingPhaseEnds := [] }

/-- After the first of two stacked timeouts fired: Rest entered, the
second timeout still pending with its stale `(work, 1)` closure. -/
def afterFire1 : EngineState :=
  { settings := ⟨20, 40, 5⟩
    isRunning := true
    isPaused := false
    phase := .rest
    currentRound := 1
    remainingMs := 40000
    lastBeepSecond := none
    interval := some (.rest, 1)
    pendingPhaseEnds := [(.work, 1)] }

/-- Five seconds into the Rest phase, second stacked timeout still
pending. -/
def afterFire1Tick : EngineState :=
  { afterFire1 with remainingMs := 35000 }

/-- After the second stacked timeout fired: its stale Work closure
re-applied the Work-to-Rest transition, resetting the Rest countdown
back to its full duration. -/
def afterFire2 : EngineState :=
  { afterFire1 with remainingMs := 40000, pendingPhaseEnds := [] }

/-- A running state in the middle of a Rest phase of round 2. -/
def midRestState : EngineState :=
  { settings := ⟨20, 40, 5⟩
    isRunning := true
    isPaused := false
    phase := .rest
    currentRound := 2
    remainingMs := 5000
    lastBeepSecond := none
    interval := some (.rest, 2)
    pendingPhaseEnds := [] }

/-- A running Work state three seconds before the phase boundary. -/
def nearCueState : EngineState :=
  { settings := ⟨20, 40, 5⟩
    isRunning := true
    isPaused := false
    phase := .work
    currentRound := 1
    remainingMs := 3000
    lastBeepSecond := none
    interval := some (.work, 1)
    pendingPhaseEnds := [] }

/-- Idle state after editing the configuration to 10 s work, no rest,
2 rounds. -/
def c1Config : EngineState :=
  { initialState with settings := ⟨10, 0, 2⟩ }

/-- Started state of the 10/0/2 run; interval captured `(work, 1)`. -/
def c1Started : EngineState :=
  { settings := ⟨10, 0, 2⟩
    isRunning := true
    isPaused := false
    phase := .work
    currentRound := 1
    remainingMs := 10000
    lastBeepSecond := none
    interval := some (.work, 1)
    pendingPhaseEnds := [] }

/-- First zero-crossing of the 10/0/2 run. -/
def c1Grace : EngineState :=
  { c1Started with
    remainingMs := 0
    lastBeepSecond := some 0
    pendingPhaseEnds := [(.work, 1)] }

/-- Round 2 of the 10/0/2 run: the phase did not change, so the
interval effect did not resubscribe and its closure still holds
`(work, 1)`. -/
def c1Round2 : EngineState :=
  { c1Started with currentRound := 2 }

/-- Second zero-crossing of the 10/0/2 run: the scheduled timeout again
carries the stale `(work, 1)` closure. -/
def c1Grace2 : EngineState :=
  { c1Round2 with
    remainingMs := 0
    lastBeepSecond := some 0
    pendingPhaseEnds := [(.work, 1)] }

/-- Round 3 of the 2-round 10/0/2 run: the stale captured round 1 made
the completion guard `currentRound >= rounds` compare 1 with 2, so the
run continued past its final round instead of stopping. -/
def c1Round3 : EngineState :=
  { c1Started with currentRound := 3 }

lemma startTimer_initialState : startTimer initialState = { startedState with interval := none } := by
  simp only [startTimer, initialState, startedState]
  norm_num

lemma secondsRemaining_20500 : secondsRemaining 20500 = 21 :=
  secondsRemaining_eval (by norm_num) (by norm_num)

lemma secondsRemaining_2800 : secondsRemaining 2800 = 3 :=
  secondsRemaining_eval (by norm_num) (by norm_num)

lemma secondsRemaining_35000 : secondsRemaining 35000 = 35 :=
  secondsRemaining_eval (by norm_num) (by norm_num)

lemma tick_startedState_neg :
    tick startedState (-500) = ({ startedState with remainingMs := 20500 }, []) := by
  rw [tick_big_eval startedState (-500) 20500 21 rfl rfl
    (show max (0 : ℚ) (20000 - (-500)) = 20500 by norm_num)
    secondsRemaining_20500 (by norm_num)]

/-! ### Step evaluations for the counterexample runs -/

lemma step_start_initial : stepState initialState .start = startedState := by
  simp only [stepState]
  rw [if_neg (by simp [initialState])]
  rw [refreshInterval_active (by decide) rfl rfl]
  rw [startTimer_initialState]
  rfl

lemma step_tick_started : stepState startedState (.tickOp 20000) = graceState := by
  simp only [stepState]
  rw [tick_zero_eval startedState 20000 rfl rfl
    (show max (0 : ℚ) (20000 - 20000) = 0 by norm_num) (by intro h; cases h)]
  rw [refreshInterval_deps_eq (by decide)]
  rfl

lemma step_tick_grace : stepState graceState (.tickOp 50) = graceState2 := by
  simp only [stepState]
  rw [tick_zero_repeat_eval graceState 50 rfl rfl
    (show max (0 : ℚ) (0 - 50) = 0 by norm_num) rfl]
  rw [refreshInterval_deps_eq (by decide)]
  rfl

lemma step_stop_grace : stepState graceState .stop = stoppedGraceState := by
  simp only [stepState]
  rw [if_pos (show graceState.isRunning = true from rfl)]
  rw [refreshInterval_inactive (by decide) (by decide)]
  rfl

lemma step_fire_stopped :
    stepState stoppedGraceState .firePhaseEnd = spuriousStoppedRestState := by
  show refreshInterval stoppedGraceState
    (handlePhaseEndCaptured { stoppedGraceState with pendingPhaseEnds := [] }
      Phase.work 1) = spuriousStoppedRestState
  rw [captured_work_rest 1 (by decide)]
  rw [refreshInterval_inactive (by decide) (by decide)]
  simp only [stoppedGraceState, initialState, spuriousStoppedRestState]
  norm_num

lemma step_fire_grace2 : stepState graceState2 .firePhaseEnd = afterFire1 := by
  show refreshInterval graceState2
    (handlePhaseEndCaptured { graceState2 with pendingPhaseEnds := [(.work, 1)] }
      Phase.work 1) = afterFire1
  rw [captured_work_rest 1 (by decide)]
  rw [refreshInterval_active (by decide) rfl rfl]
  simp only [graceState2, graceState, startedState, afterFire1]
  norm_num

lemma step_tick_afterFire1 : stepState afterFire1 (.tickOp 5000) = afterFire1Tick := by
  simp only [stepState]
  rw [tick_big_eval afterFire1 5000 35000 35 rfl rfl
    (show max (0 : ℚ) (40000 - 5000) = 35000 by norm_num)
    secondsRemaining_35000 (by norm_num)]
  rw [refreshInterval_deps_eq (by decide)]
  rfl

lemma step_fire_afterFire1Tick :
    stepState afterFire1Tick .firePhaseEnd = afterFire2 := by
  show refreshInterval afterFire1Tick
    (handlePhaseEndCaptured { afterFire1Tick with pendingPhaseEnds := [] }
      Phase.work 1) = afterFire2
  rw [captured_work_rest 1 (by decide)]
  rw [refreshInterval_deps_eq (by decide)]
  simp only [afterFire1Tick, afterFire1, afterFire2]
  norm_num

lemma step_config_c1 : stepState initialState (.setConfig ⟨10, 0, 2⟩) = c1Config := by
  simp only [stepState]
  rw [if_neg (by simp [initialState])]
  rw [refreshInterval_deps_eq (by decide)]
  rfl

lemma step_start_c1 : stepState c1Config .start = c1Started := by
  simp only [stepState]
  rw [if_neg (by simp [c1Config, initialState])]
  rw [refreshInterval_active (by decide) rfl rfl]
  simp only [startTimer, c1Config, initialState, c1Started]
  norm_num

lemma step_tick_c1 : stepState c1Started (.tickOp 10000) = c1Grace := by
  simp only [stepState]
  rw [tick_zero_eval c1Started 10000 rfl rfl
    (show max (0 : ℚ) (10000 - 10000) = 0 by norm_num) (by intro h; cases h)]
  rw [refreshInterval_deps_eq (by decide)]
  rfl

lemma step_fire_c1 : stepState c1Grace .firePhaseEnd = c1Round2 := by
  show refreshInterval c1Grace
    (handlePhaseEndCaptured { c1Grace with pendingPhaseEnds := [] } Phase.work 1) =
      c1Round2
  rw [captured_work_next 1 (by decide) (by decide)]
  rw [refreshInterval_deps_eq (by decide)]
  simp only [c1Grace, c1Started, c1Round2]
  norm_num

lemma step_tick2_c1 : stepState c1Round2 (.tickOp 10000) = c1Grace2 := by
  simp only [stepState]
  rw [tick_zero_eval c1Round2 10000 rfl rfl
    (show max (0 : ℚ) (10000 - 10000) = 0 by norm_num) (by intro h; cases h)]
  rw [refreshInterval_deps_eq (by decide)]
  rfl

lemma step_fire2_c1 : stepState c1Grace2 .firePhaseEnd = c1Round3 := by
  show refreshInterval c1Grace2
    (handlePhaseEndCaptured { c1Grace2 with pendingPhaseEnds := [] } Phase.work 1) =
      c1Round3
  rw [captured_work_next 1 (by decide) (by decide)]
  rw [refreshInterval_deps_eq (by decide)]
  simp only [c1Grace2, c1Round2, c1Started, c1Round3]
  norm_num

lemma runOps_stale_round :
    runOps initialState
      [.setConfig ⟨10, 0, 2⟩, .start, .tickOp 10000, .firePhaseEnd,
       .tickOp 10000, .firePhaseEnd] = c1Round3 := by
  simp only [runOps, step_config_c1, step_start_c1, step_tick_c1, step_fire_c1,
    step_tick2_c1, step_fire2_c1]

lemma runOps_stop_then_leftover :
    runOps initialState [.start, .tickOp 20000, .stop, .firePhaseEnd] =
      spuriousStoppedRestState := by
  simp only [runOps, step_start_initial, step_tick_started, step_stop_grace,
    step_fire_stopped]

lemma runOps_stopped_grace :
    runOps initialState [.start, .tickOp 20000, .stop] = stoppedGraceState := by
  simp only [runOps, step_start_initial, step_tick_started, step_stop_grace]

lemma runOps_double_schedule :
    runOps initialState [.start, .tickOp 20000, .tickOp 50] = graceState2 := by
  simp only [runOps, step_start_initial, step_tick_started, step_tick_grace]

lemma runOps_first_fire_tick :
    runOps initialState
      [.start, .tickOp 20000, .tickOp 50, .firePhaseEnd, .tickOp 5000] =
      afterFire1Tick := by
  simp only [runOps, step_start_initial, step_tick_started, step_tick_grace,
    step_fire_grace2, step_tick_afterFire1]

lemma runOps_double_fire :
    runOps initialState
      [.start, .tickOp 20000, .tickOp 50, .firePhaseEnd, .tickOp 5000, .firePhaseEnd] =
      afterFire2 := by
  simp only [runOps, step_start_initial, step_tick_started, step_tick_grace,
    step_fire_grace2, step_tick_afterFire1, step_fire_afterFire1Tick]

/-! ### Step-level helpers for the claims -/

lemma step_fire_cons {s : EngineState} {ph : Phase} {rd : ℕ} {tl : List (Phase × ℕ)}
    (h : s.pendingPhaseEnds = (ph, rd) :: tl) :
    stepState s .firePhaseEnd =
      refreshInterval s
        (handlePhaseEndCaptured { s with pendingPhaseEnds := tl } ph rd) := by
  show (match s.pendingPhaseEnds with
        | [] => s
        | c :: tl =>
            refreshInterval s
              (handlePhaseEndCaptured { s with pendingPhaseEnds := tl } c.1 c.2)) = _
  rw [h]

lemma step_fire_nil {s : EngineState} (h : s.pendingPhaseEnds = []) :
    stepState s .firePhaseEnd = s := by
  show (match s.pendingPhaseEnds with
        | [] => s
        | c :: tl =>
            refreshInterval s
              (handlePhaseEndCaptured { s with pendingPhaseEnds := tl } c.1 c.2)) = s
  rw [h]

lemma step_stop_running {s : EngineState} (hr : s.isRunning = true) :
    stepState s .stop =
      { s with
        isRunning := false
        isPaused := false
        phase := .idle
        remainingMs := 0
        currentRound := 0
        lastBeepSecond := none
        interval := none } := by
  simp only [stepState]
  rw [if_pos hr]
  have h1 : ¬effectDeps (stopTimer s) = effectDeps s := by
    intro h
    simp [effectDeps, stopTimer, hr] at h
  have h2 : ¬((stopTimer s).isRunning = true ∧ (stopTimer s).isPaused = false) := by
    intro h
    exact absurd h.1 (by simp [stopTimer])
  rw [refreshInterval_inactive h1 h2]
  rfl

/-! ### Claims -/

/-- C1 demonstration at the failing input: configure 10 s work, no
rest, 2 rounds, start, run both work phases to zero and fire each
scheduled phase end.  The interval effect dependency array omits
`currentRound`, so the Work-to-Work transition does not resubscribe the
effect and both timeouts capture round 1; the completion guard
`currentRound >= s.rounds` therefore compares the stale 1 with 2 and
the timer runs on to round 3 of a 2-round run instead of reaching Idle
with round zero. -/
theorem C1_stale_round_demonstration :
    (runOps initialState
      [.setConfig ⟨10, 0, 2⟩, .start, .tickOp 10000, .firePhaseEnd,
       .tickOp 10000, .firePhaseEnd]).currentRound = 3 ∧
    (runOps initialState
      [.setConfig ⟨10, 0, 2⟩, .start, .tickOp 10000, .firePhaseEnd,
       .tickOp 10000, .firePhaseEnd]).settings.rounds = 2 ∧
    (runOps initialState
      [.setConfig ⟨10, 0, 2⟩, .start, .tickOp 10000, .firePhaseEnd,
       .tickOp 10000, .firePhaseEnd]).isRunning = true ∧
    (runOps initialState
      [.setConfig ⟨10, 0, 2⟩, .start, .tickOp 10000, .firePhaseEnd,
       .tickOp 10000, .firePhaseEnd]).phase = .work := by
  rw [runOps_stale_round]
  exact ⟨rfl, rfl, rfl, rfl⟩

/-- C3 counterexample: stop during the grace window does not cancel the
pending timeout, and the timeout branches on its captured Work phase,
not the current Idle phase: start, reach zero, stop inside the window,
let the leftover timeout fire — the state becomes Rest with the full
rest duration while `running` stays false, so a phase transition takes
effect after stop has run. -/
theorem C3_stop_cancel_counterexample :
    (runOps initialState [.start, .tickOp 20000, .stop, .firePhaseEnd]).phase
        = .rest ∧
    (runOps initialState [.start, .tickOp 20000, .stop, .firePhaseEnd]).remainingMs
        = 40000 ∧
    (runOps initialState [.start, .tickOp 20000, .stop, .firePhaseEnd]).isRunning
        = false := by
  rw [runOps_stop_then_leftover]
  exact ⟨rfl, rfl, rfl⟩

/-- C3 amended: stop forces Idle immediately and clears the interval,
but the scheduled phase-end timeout is not cancelled; when it fires it
branches on its captured phase, so a timeout captured in Work, firing
after a stop with a positive rest duration, puts the stopped timer into
Rest with the full rest duration. -/
theorem C3_stop_no_cancel_spurious_transition :
    (∀ s : EngineState, stopTimer s =
      { s with
        isRunning := false
        isPaused := false
        phase := .idle
        remainingMs := 0
        currentRound := 0
        lastBeepSecond := none }) ∧
    (∀ s : EngineState, s.isRunning = true →
      (stepState s .stop).pendingPhaseEnds = s.pendingPhaseEnds ∧
      (stepState s .stop).interval = none) ∧
    (∀ (s : EngineState) (rd : ℕ) (tl : List (Phase × ℕ)), s.isRunning = true →
      s.pendingPhaseEnds = (Phase.work, rd) :: tl → 0 < s.settings.restSec →
      stepState (stepState s .stop) .firePhaseEnd =
        { s with
          isRunning := false
          isPaused := false
          phase := .rest
          remainingMs := (s.settings.restSec : ℚ) * 1000
          currentRound := 0
          lastBeepSecond := none
          interval := none
          pendingPhaseEnds := tl }) := by
  refine ⟨fun _ => rfl, ?_, ?_⟩
  · intro s hr
    rw [step_stop_running hr]
    exact ⟨rfl, rfl⟩
  · intro s rd tl hr hpend hrest
    rw [step_stop_running hr]
    rw [step_fire_cons
      (show ({ s with
          isRunning := false
          isPaused := false
          phase := Phase.idle
          remainingMs := 0
          currentRound := 0
          lastBeepSecond := none
          interval := none } : EngineState).pendingPhaseEnds = (Phase.work, rd) :: tl
        from hpend)]
    rw [captured_work_rest rd
      (show 0 < ({ s with
          isRunning := false
          isPaused := false
          phase := Phase.idle
          remainingMs := 0
          currentRound := 0
          lastBeepSecond := none
          interval := none
          pendingPhaseEnds := tl } : EngineState).settings.restSec from hrest)]
    have h1 : ¬effectDeps
        ({ s with
          isRunning := false
          isPaused := false
          phase := Phase.rest
          remainingMs := (s.settings.restSec : ℚ) * 1000
          currentRound := 0
          lastBeepSecond := none
          interval := none
          pendingPhaseEnds := tl } : EngineState) =
        effectDeps
        ({ s with
          isRunning := false
          isPaused := false
          phase := Phase.idle
          remainingMs := 0
          currentRound := 0
          lastBeepSecond := none
          interval := none } : EngineState) := by
      intro h
      simp [effectDeps] at h
    have h2 : ¬(({ s with
          isRunning := false
          isPaused := false
          phase := Phase.rest
          remainingMs := (s.settings.restSec : ℚ) * 1000
          currentRound := 0
          lastBeepSecond := none
          interval := none
          pendingPhaseEnds := tl } : EngineState).isRunning = true ∧
        ({ s with
          isRunning := false
          isPaused := false
          phase := Phase.rest
          remainingMs := (s.settings.restSec : ℚ) * 1000
          currentRound := 0
          lastBeepSecond := none
          interval := none
          pendingPhaseEnds := tl } : EngineState).isPaused = false) := by
      intro h
      simp at h
    rw [refreshInterval_inactive h1 h2]

/-- C3 witness: the spurious-transition equation instantiated at the
concrete grace-window state. -/
theorem C3_stop_no_cancel_spurious_transition_witness :
    stepState (stepState graceState .stop) .firePhaseEnd =
      { graceState with
        isRunning := false
        isPaused := false
        phase := .rest
        remainingMs := (graceState.settings.restSec : ℚ) * 1000
        currentRound := 0
        lastBeepSecond := none
        interval := none
        pendingPhaseEnds := [] } :=
  C3_stop_no_cancel_spurious_transition.2.2 graceState 1 [] rfl rfl (by decide)

/-- C4 counterexample: the invariant is not preserved by the deferred
phase-end action.  The stopped grace-window state is reachable and
satisfies the invariant, but the leftover timeout, with its captured
Work closure, fires on it and produces phase Rest with 40000 ms
remaining while `running` is still false. -/
theorem C4_invariant_broken_counterexample :
    runOps initialState [.start, .tickOp 20000, .stop] = stoppedGraceState ∧
    runInv stoppedGraceState ∧
    ¬runInv (stepState stoppedGraceState .firePhaseEnd) := by
  refine ⟨runOps_stopped_grace, fun _ => ⟨rfl, rfl, rfl⟩, ?_⟩
  rw [step_fire_stopped]
  intro hinv
  exact absurd (hinv rfl).1 (by decide)

/-- C4 amended: the invariant `running = false implies Idle, zero
remaining time, round zero` holds initially and is preserved by start,
stop, pause toggle, tick and configuration edits, and by the deferred
phase-end action as long as the timer is running; it is not preserved
by a leftover deferred phase-end firing on a stopped timer (see the
counterexample). -/
theorem C4_idle_invariant_amended :
    runInv initialState ∧
    (∀ s : EngineState, runInv s →
      runInv (stepState s .start) ∧ runInv (stepState s .stop) ∧
      runInv (stepState s .pauseToggle) ∧
      (∀ d : ℚ, runInv (stepState s (.tickOp d))) ∧
      (∀ c : Settings, runInv (stepState s (.setConfig c)))) ∧
    (∀ s : EngineState, s.isRunning = true → runInv (stepState s .firePhaseEnd)) := by
  refine ⟨runInv_initialState, ?_, ?_⟩
  · intro s h
    refine ⟨?_, ?_, ?_, ?_, ?_⟩
    · simp only [stepState]
      by_cases hr : s.isRunning = true
      · rw [if_pos hr]
        exact h
      · rw [if_neg hr]
        exact runInv_refreshInterval s (runInv_startTimer s)
    · simp only [stepState]
      by_cases hr : s.isRunning = true
      · rw [if_pos hr]
        exact runInv_refreshInterval s (runInv_stopTimer s)
      · rw [if_neg hr]
        exact h
    · simp only [stepState]
      exact runInv_refreshInterval s (runInv_togglePause h)
    · intro d
      simp only [stepState]
      exact runInv_refreshInterval s (runInv_tick h d)
    · intro c
      simp only [stepState]
      by_cases hr : s.isRunning = true
      · rw [if_pos hr]
        exact h
      · rw [if_neg hr]
        exact runInv_refreshInterval s (fun hfalse => h hfalse)
  · intro s hr
    rcases hpp : s.pendingPhaseEnds with _ | ⟨⟨ph, rd⟩, tl⟩
    · rw [step_fire_nil hpp]
      intro hfalse
      rw [hr] at hfalse
      cases hfalse
    · rw [step_fire_cons hpp]
      exact runInv_refreshInterval s
        (runInv_captured_of_running
          (show ({ s with pendingPhaseEnds := tl } : EngineState).isRunning = true
            from hr) ph rd)

/-- C4 witness: preservation by the stop operation at the started
state. -/
theorem C4_idle_invariant_amended_witness : runInv (stepState startedState .stop) :=
  (C4_idle_invariant_amended.2.1 startedState (fun h => absurd h (by decide))).2.1

/-- C5 counterexample: a second tick observing zero inside the grace
window schedules a second phase-end timeout (nothing is deduplicated),
and both execute: both timeouts hold the same captured `(work, 1)`
closure, so the second fire re-applies the Work-to-Rest transition —
five seconds into the Rest phase the countdown jumps from 35000 ms back
to the full 40000 ms. -/
theorem C5_double_schedule_counterexample :
    (runOps initialState [.start, .tickOp 20000, .tickOp 50]).pendingPhaseEnds =
      [(Phase.work, 1), (Phase.work, 1)] ∧
    (runOps initialState
      [.start, .tickOp 20000, .tickOp 50, .firePhaseEnd, .tickOp 5000]).remainingMs
      = 35000 ∧
    (runOps initialState
      [.start, .tickOp 20000, .tickOp 50, .firePhaseEnd, .tickOp 5000,
       .firePhaseEnd]).remainingMs = 40000 ∧
    (runOps initialState
      [.start, .tickOp 20000, .tickOp 50, .firePhaseEnd, .tickOp 5000,
       .firePhaseEnd]).phase = .rest ∧
    (runOps initialState
      [.start, .tickOp 20000, .tickOp 50, .firePhaseEnd, .tickOp 5000,
       .firePhaseEnd]).currentRound = 1 := by
  rw [runOps_double_schedule, runOps_first_fire_tick, runOps_double_fire]
  exact ⟨rfl, rfl, rfl, rfl, rfl⟩

/-- C5 amended: every tick that observes zero remaining time appends
exactly one phase-end timeout carrying the interval closure (one per
such tick, with no deduplication inside the grace window), a single
tick schedules at most one, and in the timing of the source the 100 ms
grace delay is shorter than the 200 ms tick period. -/
theorem C5_one_schedule_per_zero_tick :
    (∀ (s : EngineState) (d : ℚ), s.isRunning = true → s.isPaused = false →
      (tick s d).1.pendingPhaseEnds =
        (if max 0 (s.remainingMs - d) ≤ 0 then s.pendingPhaseEnds ++ s.interval.toList
         else s.pendingPhaseEnds)) ∧
    (∀ (s : EngineState) (d : ℚ),
      (tick s d).1.pendingPhaseEnds.length ≤ s.pendingPhaseEnds.length + 1) ∧
    graceDelayMs < tickIntervalMs := by
  refine ⟨fun s d hr hp => tick_pendingPhaseEnds hr hp d, ?_, ?_⟩
  · intro s d
    unfold tick
    split
    · rw [tickCore_fst_pendingPhaseEnds]
      split
      · rw [List.length_append]
        have : s.interval.toList.length ≤ 1 := by
          cases s.interval <;> simp
        omega
      · omega
    · exact Nat.le_succ _
  · norm_num [graceDelayMs, tickIntervalMs]

/-- C5 witness: the pending-list characterization at the grace-window
state and a 50 ms tick. -/
theorem C5_one_schedule_per_zero_tick_witness :
    (tick graceState 50).1.pendingPhaseEnds =
      (if max 0 (graceState.remainingMs - 50) ≤ 0 then
        graceState.pendingPhaseEnds ++ graceState.interval.toList
       else graceState.pendingPhaseEnds) :=
  C5_one_schedule_per_zero_tick.1 graceState 50 rfl rfl

/-- C10 counterexample: a leftover phase-end fired while the timer is
Idle does not leave the state unchanged: its captured Work closure
performs the Work-to-Rest transition, mutating phase and remaining
time. -/
theorem C10_idle_fire_counterexample :
    stoppedGraceState.phase = .idle ∧
    stepState stoppedGraceState .firePhaseEnd = spuriousStoppedRestState ∧
    spuriousStoppedRestState.phase = .rest ∧
    spuriousStoppedRestState.remainingMs = 40000 :=
  ⟨rfl, step_fire_stopped, rfl, rfl⟩

/-- C10 amended: the deferred phase-end action branches on the phase
and round captured by its closure, not on the current phase: when the
captured phase is Idle it only consumes the timeout and clears the cue
memory, but a leftover action captured in Work, firing while the timer
is Idle and stopped, still performs the Work-to-Rest transition when
the rest duration is positive. -/
theorem C10_captured_phase_decides :
    (∀ (s : EngineState) (rd : ℕ) (tl : List (Phase × ℕ)),
      s.pendingPhaseEnds = (Phase.idle, rd) :: tl →
      stepState s .firePhaseEnd =
        { s with pendingPhaseEnds := tl, lastBeepSecond := none }) ∧
    (∀ (s : EngineState) (rd : ℕ) (tl : List (Phase × ℕ)),
      s.phase = .idle → s.isRunning = false →
      s.pendingPhaseEnds = (Phase.work, rd) :: tl → 0 < s.settings.restSec →
      stepState s .firePhaseEnd =
        { s with
          phase := .rest
          remainingMs := (s.settings.restSec : ℚ) * 1000
          lastBeepSecond := none
          interval := none
          pendingPhaseEnds := tl }) := by
  constructor
  · intro s rd tl hpend
    rw [step_fire_cons hpend, captured_idle]
    exact refreshInterval_deps_eq rfl
  · intro s rd tl hph hrun hpend hrest
    rw [step_fire_cons hpend]
    rw [captured_work_rest rd
      (show 0 < ({ s with pendingPhaseEnds := tl } : EngineState).settings.restSec
        from hrest)]
    have h1 : ¬effectDeps
        ({ s with
          phase := Phase.rest
          remainingMs := (s.settings.restSec : ℚ) * 1000
          lastBeepSecond := none
          pendingPhaseEnds := tl } : EngineState) = effectDeps s := by
      intro h
      have h2 : Phase.rest = s.phase := congrArg (fun t => t.2.2) h
      rw [hph] at h2
      cases h2
    have h2 : ¬(({ s with
          phase := Phase.rest
          remainingMs := (s.settings.restSec : ℚ) * 1000
          lastBeepSecond := none
          pendingPhaseEnds := tl } : EngineState).isRunning = true ∧
        ({ s with
          phase := Phase.rest
          remainingMs := (s.settings.restSec : ℚ) * 1000
          lastBeepSecond := none
          pendingPhaseEnds := tl } : EngineState).isPaused = false) := by
      intro h
      have h3 : s.isRunning = true := h.1
      rw [hrun] at h3
      cases h3
    rw [refreshInterval_inactive h1 h2]

/-- C10 witness: the leftover Work-captured action at the stopped
grace-window state. -/
theorem C10_captured_phase_decides_witness :
    stepState stoppedGraceState .firePhaseEnd =
      { stoppedGraceState with
        phase := .rest
        remainingMs := (stoppedGraceState.settings.restSec : ℚ) * 1000
        lastBeepSecond := none
        interval := none
        pendingPhaseEnds := [] } :=
  C10_captured_phase_decides.2 stoppedGraceState 1 [] rfl rfl rfl (by decide)

/-- C7: the configuration is frozen for the duration of a run: no
operation changes the settings while running (the inputs are only
rendered while stopped), an edit while stopped replaces them, and a
start reads the then-current settings for the first phase duration. -/
theorem C7_config_frozen_while_running :
    (∀ (s : EngineState) (op : Op), s.isRunning = true →
      (stepState s op).settings = s.settings) ∧
    (∀ (s : EngineState) (c : Settings), s.isRunning = false →
      (stepState s (.setConfig c)).settings = c) ∧
    (∀ s : EngineState, (startTimer s).remainingMs = (s.settings.workSec : ℚ) * 1000 ∧
      (startTimer s).settings = s.settings) ∧
    (∀ s : EngineState, (handlePhaseEnd s).settings = s.settings) := by
  refine ⟨?_, ?_, fun s => ⟨rfl, rfl⟩, handlePhaseEnd_settings⟩
  · intro s op hr
    cases op with
    | start =>
        simp only [stepState]
        rw [if_pos hr]
    | stop =>
        simp only [stepState]
        rw [if_pos hr, refreshInterval_settings]
        rfl
    | pauseToggle =>
        simp only [stepState]
        rw [refreshInterval_settings]
        unfold togglePause
        split <;> rfl
    | tickOp d =>
        simp only [stepState]
        rw [refreshInterval_settings, tick_fst_settings]
    | firePhaseEnd =>
        rcases hpp : s.pendingPhaseEnds with _ | ⟨⟨ph, rd⟩, tl⟩
        · rw [step_fire_nil hpp]
        · rw [step_fire_cons hpp, refreshInterval_settings, captured_settings]
    | setConfig c =>
        simp only [stepState]
        rw [if_pos hr]
  · intro s c hrf
    simp only [stepState]
    rw [if_neg (by simp [hrf]), refreshInterval_settings]

/-- C7 witness: settings unchanged by a stop while running, and a
configuration edit applied while stopped. -/
theorem C7_config_frozen_while_running_witness :
    (stepState startedState .stop).settings = startedState.settings ∧
    (stepState initialState (.setConfig ⟨20, 0, 5⟩)).settings = ⟨20, 0, 5⟩ :=
  ⟨C7_config_frozen_while_running.1 startedState .stop rfl,
   C7_config_frozen_while_running.2.1 initialState ⟨20, 0, 5⟩ rfl⟩

/-- C8 counterexample: `startTimer` carries no `running` check; invoked
on a running state (mid Rest, round 2) it is not a no-op: it
reinitializes the run to round 1 of Work. -/
theorem C8_start_guard_counterexample :
    midRestState.isRunning = true ∧
    startTimer midRestState ≠ midRestState ∧
    (startTimer midRestState).phase = .work ∧
    (startTimer midRestState).currentRound = 1 :=
  ⟨rfl,
   fun h => absurd (congrArg EngineState.phase h) (by decide),
   rfl, rfl⟩

/-- C8 amended: `startTimer` itself performs no `running` check and
always reinitializes the run; invocation while running is prevented
only at the UI level, where the Start control is rendered solely when
`running = false`, so the start step is a no-op on a running state. -/
theorem C8_start_unguarded :
    (∀ s : EngineState, startTimer s =
      { s with
        currentRound := 1
        phase := .work
        remainingMs := (s.settings.workSec : ℚ) * 1000
        isRunning := true
        isPaused := false
        lastBeepSecond := none }) ∧
    (∀ s : EngineState, s.isRunning = true → stepState s .start = s) :=
  ⟨fun _ => rfl,
   fun s h => by
     simp only [stepState]
     rw [if_pos h]⟩

/-- C8 witness: the guarded start step is a no-op on the started
state. -/
theorem C8_start_unguarded_witness : stepState startedState .start = startedState :=
  C8_start_unguarded.2 startedState rfl

/-- C6 counterexample: a tick with negative elapsed time is not treated
as zero elapsed time: on the started state a tick of -500 ms raises the
remaining time from 20000 to 20500 ms. -/
theorem C6_negative_elapsed_counterexample :
    startedState.isRunning = true ∧
    startedState.isPaused = false ∧
    startedState.remainingMs = 20000 ∧
    (tick startedState (-500)).1.remainingMs = 20500 ∧
    startedState.remainingMs < (tick startedState (-500)).1.remainingMs := by
  rw [tick_startedState_neg]
  exact ⟨rfl, rfl, rfl, rfl, by show (20000 : ℚ) < 20500; norm_num⟩

/-- C6 amended: a tick applies `remainingMs := max 0 (remainingMs -
elapsedMs)` with no clamp on a negative elapsed time, so a negative
elapsed time strictly increases the remaining time; the remaining time
itself never becomes negative. -/
theorem C6_negative_elapsed_amended :
    ∀ (s : EngineState) (d : ℚ), s.isRunning = true → s.isPaused = false →
      (tick s d).1.remainingMs = max 0 (s.remainingMs - d) ∧
      0 ≤ (tick s d).1.remainingMs ∧
      (d < 0 → 0 ≤ s.remainingMs → s.remainingMs < (tick s d).1.remainingMs) := by
  intro s d hr hp
  rw [tick_active hr hp, tickCore_fst_remainingMs]
  refine ⟨rfl, le_max_left _ _, ?_⟩
  intro hd hs
  rw [max_eq_right (by linarith)]
  linarith

/-- C6 witness: the increase realized at the started state with a
-500 ms tick. -/
theorem C6_negative_elapsed_amended_witness :
    startedState.remainingMs < (tick startedState (-500)).1.remainingMs :=
  (C6_negative_elapsed_amended startedState (-500) rfl rfl).2.2 (by norm_num)
    (by show (0 : ℚ) ≤ 20000; norm_num)

lemma tickAudio_nearCue :
    tickAudio nearCueState 200 false =
      Except.error { nearCueState with lastBeepSecond := some 3 } :=
  tickAudio_fail_eval nearCueState 200 2800 3 rfl rfl
    (show max (0 : ℚ) (3000 - 200) = 2800 by norm_num)
    secondsRemaining_2800 (by norm_num) (by intro h; cases h)

/-- C9 counterexample: a failing cue emission is not caught: on a
running Work state at 3000 ms, a 200 ms tick that should beep aborts
with an error instead of completing — the remaining time is not
updated (still 3000 ms) and no ok-result is produced. -/
theorem C9_audio_failure_counterexample :
    tickAudio nearCueState 200 false =
      Except.error { nearCueState with lastBeepSecond := some 3 } ∧
    ({ nearCueState with lastBeepSecond := some (3 : ℤ) }).remainingMs =
      nearCueState.remainingMs ∧
    tickAudio nearCueState 200 false ≠ Except.ok (tick nearCueState 200) := by
  refine ⟨tickAudio_nearCue, rfl, ?_⟩
  rw [tickAudio_nearCue]
  intro h
  exact Except.noConfusion h

/-- C9 amended: with a working audio sink the audio-aware tick agrees
with the plain tick; when cue emission fails, the tick aborts with the
beep memory already updated, the remaining time not updated and no
phase-end scheduled; ticks that emit no cue never fail. -/
theorem C9_audio_failure_aborts_tick :
    (∀ (s : EngineState) (d : ℚ), tickAudio s d true = Except.ok (tick s d)) ∧
    (∀ (s : EngineState) (d next : ℚ) (sec : ℤ), s.isRunning = true →
      s.isPaused = false → max 0 (s.remainingMs - d) = next →
      secondsRemaining next = sec → sec ≤ 3 →
      (some sec : Option ℤ) ≠ s.lastBeepSecond →
      tickAudio s d false = Except.error { s with lastBeepSecond := some sec }) ∧
    (∀ (s : EngineState) (d : ℚ) (b : Bool), s.isRunning = true → s.isPaused = false →
      ¬(secondsRemaining (max 0 (s.remainingMs - d)) ≤ 3 ∧
        (some (secondsRemaining (max 0 (s.remainingMs - d))) : Option ℤ) ≠
          s.lastBeepSecond) →
      tickAudio s d b = Except.ok (tick s d)) :=
  ⟨tickAudio_ok,
   fun s d next sec => tickAudio_fail_eval s d next sec,
   fun _ _ _ hr hp h => tickAudio_nofire_eval hr hp h⟩

/-- C9 witness: the failure equation instantiated at the concrete
near-cue state. -/
theorem C9_audio_failure_aborts_tick_witness :
    tickAudio nearCueState 200 false =
      Except.error { nearCueState with lastBeepSecond := some 3 } :=
  C9_audio_failure_aborts_tick.2.1 nearCueState 200 2800 3 rfl rfl
    (show max (0 : ℚ) (3000 - 200) = 2800 by norm_num)
    secondsRemaining_2800 (by norm_num) (by intro h; cases h)

/-- C2: the cue policy.  Per tick: when the new displayed second is at
most 3 and differs from the cue memory, the memory is updated and
exactly one cue is emitted — short 880 Hz for a positive second, long
1200 Hz at zero (`cueFor`) — and no cue is emitted above 3; the tone
durations are about 150 ms and 600 ms; the cue memory is cleared by
start and by every phase transition; and over any whole countdown of a
phase of at least 4000 ms, driven by nonnegative ticks of at most
1000 ms whose total covers the phase, the emitted trace is exactly one
short cue at each of seconds 3, 2, 1 and one long cue at 0. -/
theorem C2_cue_policy :
    (∀ (s : EngineState) (d : ℚ), s.isRunning = true → s.isPaused = false →
      secondsRemaining (max 0 (s.remainingMs - d)) ≤ 3 →
      (some (secondsRemaining (max 0 (s.remainingMs - d))) : Option ℤ) ≠
        s.lastBeepSecond →
      (tick s d).1.lastBeepSecond =
        some (secondsRemaining (max 0 (s.remainingMs - d))) ∧
      (tick s d).2 =
        [(secondsRemaining (max 0 (s.remainingMs - d)),
          cueFor (secondsRemaining (max 0 (s.remainingMs - d))))]) ∧
    (∀ (s : EngineState) (d : ℚ), s.isRunning = true → s.isPaused = false →
      3 < secondsRemaining (max 0 (s.remainingMs - d)) → (tick s d).2 = []) ∧
    (∀ v : ℤ, 0 < v → cueFor v = ⟨.short, 880⟩) ∧
    cueFor 0 = ⟨.long, 1200⟩ ∧
    beepDurationMs .short = 150 ∧
    beepDurationMs .long = 600 ∧
    (∀ s : EngineState, (startTimer s).lastBeepSecond = none ∧
      (handlePhaseEnd s).lastBeepSecond = none) ∧
    (∀ (s : EngineState) (ds : List ℚ), s.isRunning = true → s.isPaused = false →
      s.lastBeepSecond = none → 4000 ≤ s.remainingMs →
      (∀ d ∈ ds, 0 ≤ d ∧ d ≤ 1000) → s.remainingMs ≤ ds.sum →
      (runTicks s ds).2 = [(3, shortCue), (2, shortCue), (1, shortCue), (0, longCue)]) := by
  refine ⟨?_, ?_, ?_, ?_, rfl, rfl, fun s => ⟨rfl, handlePhaseEnd_lastBeepSecond s⟩, ?_⟩
  · intro s d hr hp h3 hne
    rw [tick_active hr hp, tickCore_fire ⟨h3, hne⟩]
    exact ⟨rfl, fire_trace_eq (secondsRemaining_nonneg (le_max_left _ _))⟩
  · intro s d hr hp h3
    rw [tick_active hr hp, tickCore_nofire (fun hcon => absurd hcon.1 (by omega))]
  · intro v hv
    unfold cueFor
    rw [if_pos hv]
    rfl
  · unfold cueFor
    norm_num
    rfl
  · intro s ds hr hp hmem hrem hd hsum
    exact cue_trace_full hr hp hmem hrem hd hsum

/-- C2 witness: the full countdown of the started 20-second Work phase
under 20 ticks of 1000 ms emits exactly the four cues. -/
theorem C2_cue_policy_witness :
    (runTicks startedState (List.replicate 20 1000)).2 =
      [(3, shortCue), (2, shortCue), (1, shortCue), (0, longCue)] := by
  apply C2_cue_policy.2.2.2.2.2.2.2 startedState (List.replicate 20 1000) rfl rfl rfl
  · show (4000 : ℚ) ≤ 20000
    norm_num
  · intro d hd
    rw [List.eq_of_mem_replicate hd]
    norm_num
  · rw [List.sum_replicate]
    show (20000 : ℚ) ≤ 20 • (1000 : ℚ)
    rw [nsmul_eq_mul]
    norm_num
